import Mathlib

set_option autoImplicit false
set_option linter.unusedVariables false
set_option maxRecDepth 4096

/-!
Shallow embedding of the potion-kit conversation compaction and
reliability-guard engine: history store records, the summary cache
planner (`summary-cache.ts`), the chunk splitter, the message assembler
(`chat-messages.ts`), the rolling summarizer commit rule
(`getCachedOrFreshSummary` in `chat.ts`), the reply guard
(`reply-guard.ts`), and the clear command (`clear.ts`), together with
theorems about the behaviour those sources implement.

JavaScript numbers are modelled as `Int` (all values the code stores in
them here are integral); fallible / optional values are `Option`.
-/

namespace PotionKit

/-- Message role in the persisted conversation. -/
inductive Role where
  | user
  | assistant
  deriving DecidableEq, Repr

/-- `HistoryMessage` from `chat-history.ts`: `{ role, content }`. -/
structure HistoryMessage where
  role : Role
  content : String
  deriving DecidableEq, Repr

/-- `SummaryState` from `chat-history.ts`: the persisted summary cache entry. -/
structure SummaryState where
  summary : String
  summarizedUntil : Int
  firstUserMessage : String
  incrementalUpdates : Int
  deriving DecidableEq, Repr

/-- `SummaryPlan` from `summary-cache.ts`: the planner's decision. -/
structure SummaryPlan where
  firstUserMessage : String
  middleEnd : Int
  reuseCachedSummary : Option String
  summarizeFrom : Int
  seedSummary : Option String
  nextIncrementalUpdates : Int
  deriving DecidableEq, Repr

/-- `MIDDLE_START_INDEX` in `summary-cache.ts`. -/
def MIDDLE_START_INDEX : Int := 1

/-- `MAX_INCREMENTAL_SUMMARY_UPDATES` in `summary-cache.ts`. -/
def MAX_INCREMENTAL_SUMMARY_UPDATES : Int := 8

/-- `SUMMARY_CHUNK_MAX_MESSAGES` in `summary-cache.ts`. -/
def SUMMARY_CHUNK_MAX_MESSAGES : Int := 10

/-- `SUMMARY_CHUNK_MAX_CHARS` in `summary-cache.ts`. -/
def SUMMARY_CHUNK_MAX_CHARS : Int := 3200

/-- `history[0]?.role === "user" ? history[0].content : ""` — the anchor
fingerprint computed at the top of `planSummaryUpdate`. -/
def firstUserMessageOf : List HistoryMessage → String
  | [] => ""
  | m :: _ => if m.role = Role.user then m.content else ""

/-- `isValidSummaryState` from `summary-cache.ts`:
`!!state && state.summary.length > 0 && state.firstUserMessage === firstUserMessage`. -/
def isValidSummaryState : Option SummaryState → String → Bool
  | none, _ => false
  | some s, firstUserMessage =>
      decide (0 < s.summary.length) && decide (s.firstUserMessage = firstUserMessage)

/-- `planSummaryUpdate` from `summary-cache.ts`. -/
def planSummaryUpdate (history : List HistoryMessage) (maxHistory : Int)
    (cached : Option SummaryState) : SummaryPlan :=
  let middleEnd : Int := (history.length : Int) - maxHistory
  let firstUserMessage := firstUserMessageOf history
  if middleEnd ≤ MIDDLE_START_INDEX then
    { firstUserMessage := firstUserMessage, middleEnd := middleEnd,
      reuseCachedSummary := none, summarizeFrom := middleEnd,
      seedSummary := none, nextIncrementalUpdates := 0 }
  else
    match cached with
    | some c =>
        let validCached :=
          isValidSummaryState (some c) firstUserMessage &&
            decide (MIDDLE_START_INDEX ≤ c.summarizedUntil) &&
            decide (c.summarizedUntil ≤ middleEnd)
        if validCached && decide (c.summarizedUntil = middleEnd) then
          { firstUserMessage := firstUserMessage, middleEnd := middleEnd,
            reuseCachedSummary := some c.summary, summarizeFrom := middleEnd,
            seedSummary := some c.summary,
            nextIncrementalUpdates := c.incrementalUpdates }
        else
          let canIncrementalExtend :=
            validCached && decide (c.summarizedUntil < middleEnd) &&
              decide (c.incrementalUpdates < MAX_INCREMENTAL_SUMMARY_UPDATES)
          { firstUserMessage := firstUserMessage, middleEnd := middleEnd,
            reuseCachedSummary := none,
            summarizeFrom :=
              if canIncrementalExtend then c.summarizedUntil else MIDDLE_START_INDEX,
            seedSummary := if canIncrementalExtend then some c.summary else none,
            nextIncrementalUpdates :=
              if canIncrementalExtend then c.incrementalUpdates + 1 else 0 }
    | none =>
        { firstUserMessage := firstUserMessage, middleEnd := middleEnd,
          reuseCachedSummary := none, summarizeFrom := MIDDLE_START_INDEX,
          seedSummary := none, nextIncrementalUpdates := 0 }

/-- Alternating user/assistant history `m0, m1, …`, as in the repository's tests. -/
def mkHistory (n : Nat) : List HistoryMessage :=
  (List.range n).map fun i =>
    { role := if i % 2 = 0 then Role.user else Role.assistant,
      content := "m" ++ toString i }

theorem string_ne_empty_iff_length_pos (s : String) : s ≠ "" ↔ 0 < s.length := by
  cases s with
  | mk d => cases d <;> simp [String.length, String.ext_iff]

/-- The validity test `planSummaryUpdate` applies to a cached state, as a
proposition: non-empty summary, matching anchor fingerprint, and
`summarizedUntil` within `[1, middleEnd]`. -/
def ValidCachedFor (c : SummaryState) (firstUserMessage : String) (middleEnd : Int) : Prop :=
  c.summary ≠ "" ∧ c.firstUserMessage = firstUserMessage ∧
    1 ≤ c.summarizedUntil ∧ c.summarizedUntil ≤ middleEnd

theorem validCached_eq_true_iff (c : SummaryState) (fum : String) (mE : Int) :
    (isValidSummaryState (some c) fum &&
        decide (MIDDLE_START_INDEX ≤ c.summarizedUntil) &&
        decide (c.summarizedUntil ≤ mE)) = true ↔ ValidCachedFor c fum mE := by
  simp [isValidSummaryState, MIDDLE_START_INDEX, ValidCachedFor, and_assoc,
    ← string_ne_empty_iff_length_pos]

/-- C3 (amended): with a middle present and a cached state that is valid
(non-empty summary, matching anchor) and exactly covers the middle
(`summarizedUntil = middleEnd`), the planner reuses the cached summary
verbatim, plans no summarization work (`summarizeFrom = middleEnd`), and
carries `nextIncrementalUpdates` over unchanged. -/
theorem planSummaryUpdate_cache_hit (history : List HistoryMessage) (maxHistory : Int)
    (c : SummaryState)
    (hmid : 1 < (history.length : Int) - maxHistory)
    (hsum : c.summary ≠ "")
    (hfum : c.firstUserMessage = firstUserMessageOf history)
    (hlo : 1 ≤ c.summarizedUntil)
    (hhi : c.summarizedUntil = (history.length : Int) - maxHistory) :
    planSummaryUpdate history maxHistory (some c) =
      { firstUserMessage := firstUserMessageOf history,
        middleEnd := (history.length : Int) - maxHistory,
        reuseCachedSummary := some c.summary,
        summarizeFrom := (history.length : Int) - maxHistory,
        seedSummary := some c.summary,
        nextIncrementalUpdates := c.incrementalUpdates } := by
  have hm : ¬ ((history.length : Int) - maxHistory ≤ 1) := not_le.mpr hmid
  have h0 : 0 < c.summary.length := (string_ne_empty_iff_length_pos c.summary).mp hsum
  simp [planSummaryUpdate, isValidSummaryState, MIDDLE_START_INDEX, hm, hfum, hlo,
    hhi, h0, hmid.le]

/-- C3 witness. -/
theorem planSummaryUpdate_cache_hit_witness :
    planSummaryUpdate (mkHistory 16) 10
        (some { summary := "cached", summarizedUntil := 6,
                firstUserMessage := "m0", incrementalUpdates := 3 }) =
      { firstUserMessage := "m0", middleEnd := 6,
        reuseCachedSummary := some "cached", summarizeFrom := 6,
        seedSummary := some "cached", nextIncrementalUpdates := 3 } := by
  have h := planSummaryUpdate_cache_hit (mkHistory 16) 10
    { summary := "cached", summarizedUntil := 6,
      firstUserMessage := "m0", incrementalUpdates := 3 }
    (by decide) (by decide) (by decide) (by decide) (by decide)
  simpa using h

/-- C3 counterexample: a cached state satisfying every condition the claim
lists (anchor matches, `summarizedUntil ∈ [1, middleEnd]`,
`summarizedUntil = middleEnd`) but with an empty summary text is rejected by
`isValidSummaryState`, so the planner performs a full rebuild instead of the
reuse the claim asserts. -/
theorem planSummaryUpdate_cache_hit_counterexample :
    (planSummaryUpdate (mkHistory 16) 10
        (some { summary := "", summarizedUntil := 6,
                firstUserMessage := "m0", incrementalUpdates := 2 })) =
      { firstUserMessage := "m0", middleEnd := 6,
        reuseCachedSummary := none, summarizeFrom := 1,
        seedSummary := none, nextIncrementalUpdates := 0 } ∧
    ¬ ((planSummaryUpdate (mkHistory 16) 10
        (some { summary := "", summarizedUntil := 6,
                firstUserMessage := "m0", incrementalUpdates := 2 })).reuseCachedSummary
        = some "" ∧
       (planSummaryUpdate (mkHistory 16) 10
        (some { summary := "", summarizedUntil := 6,
                firstUserMessage := "m0", incrementalUpdates := 2 })).nextIncrementalUpdates
        = 2) := by decide

/-- C4 (amended): with a middle present and a cached state that is valid
(non-empty summary, matching anchor, `summarizedUntil ∈ [1, middleEnd)`)
whose update counter is below the ceiling, the planner plans an incremental
extend: `summarizeFrom` is the cache's `summarizedUntil`, the seed is the
cached summary, and the counter advances by exactly one. -/
theorem planSummaryUpdate_incremental_extend (history : List HistoryMessage)
    (maxHistory : Int) (c : SummaryState)
    (hmid : 1 < (history.length : Int) - maxHistory)
    (hsum : c.summary ≠ "")
    (hfum : c.firstUserMessage = firstUserMessageOf history)
    (hlo : 1 ≤ c.summarizedUntil)
    (hlt : c.summarizedUntil < (history.length : Int) - maxHistory)
    (hiu : c.incrementalUpdates < MAX_INCREMENTAL_SUMMARY_UPDATES) :
    planSummaryUpdate history maxHistory (some c) =
      { firstUserMessage := firstUserMessageOf history,
        middleEnd := (history.length : Int) - maxHistory,
        reuseCachedSummary := none,
        summarizeFrom := c.summarizedUntil,
        seedSummary := some c.summary,
        nextIncrementalUpdates := c.incrementalUpdates + 1 } := by
  have hm : ¬ ((history.length : Int) - maxHistory ≤ 1) := not_le.mpr hmid
  have h0 : 0 < c.summary.length := (string_ne_empty_iff_length_pos c.summary).mp hsum
  have hne : ¬ (c.summarizedUntil = (history.length : Int) - maxHistory) := ne_of_lt hlt
  have hle : c.summarizedUntil ≤ (history.length : Int) - maxHistory := le_of_lt hlt
  simp [planSummaryUpdate, isValidSummaryState, MIDDLE_START_INDEX, hm, hfum, hlo,
    hlt, hle, hne, hiu, h0]

/-- C4 witness. -/
theorem planSummaryUpdate_incremental_extend_witness :
    planSummaryUpdate (mkHistory 16) 10
        (some { summary := "older summary", summarizedUntil := 4,
                firstUserMessage := "m0", incrementalUpdates := 2 }) =
      { firstUserMessage := "m0", middleEnd := 6,
        reuseCachedSummary := none, summarizeFrom := 4,
        seedSummary := some "older summary", nextIncrementalUpdates := 3 } := by
  have h := planSummaryUpdate_incremental_extend (mkHistory 16) 10
    { summary := "older summary", summarizedUntil := 4,
      firstUserMessage := "m0", incrementalUpdates := 2 }
    (by decide) (by decide) (by decide) (by decide) (by decide) (by decide)
  simpa using h

/-- C4 counterexample: a cached state whose anchor fingerprint matches, with
`summarizedUntil = 0 < middleEnd` and a counter below the ceiling, satisfies
all of the claim's stated conditions, yet the planner performs a full
rebuild (`summarizeFrom = 1`, no seed, counter reset) rather than the
incremental extend the claim asserts. -/
theorem planSummaryUpdate_incremental_counterexample :
    (planSummaryUpdate (mkHistory 16) 10
        (some { summary := "older summary", summarizedUntil := 0,
                firstUserMessage := "m0", incrementalUpdates := 2 })) =
      { firstUserMessage := "m0", middleEnd := 6,
        reuseCachedSummary := none, summarizeFrom := 1,
        seedSummary := none, nextIncrementalUpdates := 0 } ∧
    ¬ ((planSummaryUpdate (mkHistory 16) 10
        (some { summary := "older summary", summarizedUntil := 0,
                firstUserMessage := "m0", incrementalUpdates := 2 })).summarizeFrom
        = 0 ∧
       (planSummaryUpdate (mkHistory 16) 10
        (some { summary := "older summary", summarizedUntil := 0,
                firstUserMessage := "m0", incrementalUpdates := 2 })).nextIncrementalUpdates
        = 3) := by decide

/-- C2 (amended): with a middle present, the planner emits the full-rebuild
plan (`reuseCachedSummary = none`, `summarizeFrom = 1`, `seedSummary = none`,
`nextIncrementalUpdates = 0`) whenever the cached state is missing or invalid
(empty summary, anchor mismatch, or coverage outside `[1, middleEnd]`), and
whenever the incremental-update ceiling has been reached while the cache
covers a strict prefix of the middle (`summarizedUntil < middleEnd`).  (When
the ceiling is reached but `summarizedUntil = middleEnd`, the planner
instead reuses the cache; see the counterexample.) -/
theorem planSummaryUpdate_full_rebuild (history : List HistoryMessage)
    (maxHistory : Int) (cached : Option SummaryState)
    (hmid : 1 < (history.length : Int) - maxHistory)
    (hcase :
      (∀ c, cached = some c →
        ¬ ValidCachedFor c (firstUserMessageOf history)
            ((history.length : Int) - maxHistory)) ∨
      (∃ c, cached = some c ∧ MAX_INCREMENTAL_SUMMARY_UPDATES ≤ c.incrementalUpdates ∧
        c.summarizedUntil < (history.length : Int) - maxHistory)) :
    planSummaryUpdate history maxHistory cached =
      { firstUserMessage := firstUserMessageOf history,
        middleEnd := (history.length : Int) - maxHistory,
        reuseCachedSummary := none, summarizeFrom := 1,
        seedSummary := none, nextIncrementalUpdates := 0 } := by
  have hm : ¬ ((history.length : Int) - maxHistory ≤ 1) := not_le.mpr hmid
  cases cached with
  | none => simp [planSummaryUpdate, MIDDLE_START_INDEX, hm]
  | some c =>
    rcases hcase with hinv | ⟨c2, hc2, hceil, hlt⟩
    · have hnv := hinv c rfl
      have hprop :
          ¬ ((isValidSummaryState (some c) (firstUserMessageOf history) = true ∧
              1 ≤ c.summarizedUntil) ∧
            c.summarizedUntil ≤ (history.length : Int) - maxHistory) := by
        rintro ⟨⟨hv, hl⟩, hr⟩
        exact hnv ((validCached_eq_true_iff c (firstUserMessageOf history)
          ((history.length : Int) - maxHistory)).mp
            (by simp [MIDDLE_START_INDEX, hv, hl, hr]))
      simp [planSummaryUpdate, MIDDLE_START_INDEX, hm, hprop]
    · cases hc2
      have hne : ¬ (c.summarizedUntil = (history.length : Int) - maxHistory) :=
        ne_of_lt hlt
      have h8 : ¬ (c.incrementalUpdates < MAX_INCREMENTAL_SUMMARY_UPDATES) :=
        not_lt.mpr hceil
      simp [planSummaryUpdate, MIDDLE_START_INDEX, hm, hne, h8]

/-- C2 witness. -/
theorem planSummaryUpdate_full_rebuild_witness :
    planSummaryUpdate (mkHistory 16) 10 none =
      { firstUserMessage := "m0", middleEnd := 6,
        reuseCachedSummary := none, summarizeFrom := 1,
        seedSummary := none, nextIncrementalUpdates := 0 } := by
  have h := planSummaryUpdate_full_rebuild (mkHistory 16) 10 none (by decide)
    (Or.inl (by intro c hc; cases hc))
  simpa using h

/-- C2 counterexample: a valid cached state whose counter has reached the
ceiling (`incrementalUpdates = 8`) but which exactly covers the middle
(`summarizedUntil = middleEnd = 6`) satisfies the claim's ceiling condition,
yet the planner reuses the cached summary (`summarizeFrom = 6`,
`nextIncrementalUpdates = 8`) instead of emitting the full-rebuild plan the
claim asserts. -/
theorem planSummaryUpdate_ceiling_counterexample :
    (planSummaryUpdate (mkHistory 16) 10
        (some { summary := "cached", summarizedUntil := 6,
                firstUserMessage := "m0", incrementalUpdates := 8 })) =
      { firstUserMessage := "m0", middleEnd := 6,
        reuseCachedSummary := some "cached", summarizeFrom := 6,
        seedSummary := some "cached", nextIncrementalUpdates := 8 } ∧
    ¬ ((planSummaryUpdate (mkHistory 16) 10
        (some { summary := "cached", summarizedUntil := 6,
                firstUserMessage := "m0", incrementalUpdates := 8 })).reuseCachedSummary
        = none ∧
       (planSummaryUpdate (mkHistory 16) 10
        (some { summary := "cached", summarizedUntil := 6,
                firstUserMessage := "m0", incrementalUpdates := 8 })).summarizeFrom
        = 1 ∧
       (planSummaryUpdate (mkHistory 16) 10
        (some { summary := "cached", summarizedUntil := 6,
                firstUserMessage := "m0", incrementalUpdates := 8 })).seedSummary
        = none ∧
       (planSummaryUpdate (mkHistory 16) 10
        (some { summary := "cached", summarizedUntil := 6,
                firstUserMessage := "m0", incrementalUpdates := 8 })).nextIncrementalUpdates
        = 0) := by decide

/-! ## Message assembler (`chat-messages.ts`) -/

/-- Role of an outbound API message. -/
inductive ChatRole where
  | system
  | user
  | assistant
  deriving DecidableEq, Repr

/-- `ChatMessage` sent to the model API. -/
structure ChatMessage where
  role : ChatRole
  content : String
  deriving DecidableEq, Repr

/-- `{ role: m.role, content: m.content }` — a history message as an outbound one. -/
def toChatMessage (m : HistoryMessage) : ChatMessage :=
  { role := match m.role with
      | Role.user => ChatRole.user
      | Role.assistant => ChatRole.assistant,
    content := m.content }

/-- JavaScript `Array.prototype.slice` on integer indices. -/
def jsSlice {α : Type} (l : List α) (start stop : Int) : List α :=
  let len : Int := l.length
  let s := if start < 0 then max (len + start) 0 else min start len
  let e := if stop < 0 then max (len + stop) 0 else min stop len
  (l.take e.toNat).drop s.toNat

/-- JavaScript truthiness of a nullable string. -/
def optTruthy : Option String → Bool
  | some s => decide (s ≠ "")
  | none => false

/-- The fixed reliability instruction appended to the system preface. -/
def RELIABILITY_RULE : String :=
  "\n\n## Reliability rule\nTreat earlier assistant messages as potentially stale. For project state, prefer user requests and verify files with tools before claiming changes."

/-- The assembled system content: preface, optional condensed summary, and the
reliability rule. -/
def systemContentOf (systemPrompt : String) (summary : Option String) : String :=
  systemPrompt ++
    (if optTruthy summary then
      "\n\n## Prior conversation (condensed)\n" ++ summary.getD ""
    else "") ++
    RELIABILITY_RULE

/-- `prioritizeUserRequests` from `chat-messages.ts`: keep user messages,
remember only the most recent assistant message, appended last. -/
def prioritizeUserRequests (messages : List HistoryMessage) : List HistoryMessage :=
  let acc := messages.foldl
    (fun (acc : List HistoryMessage × Option HistoryMessage) m =>
      if m.role = Role.user then (acc.1 ++ [m], acc.2) else (acc.1, some m))
    ([], none)
  match acc.2 with
  | some lastAssistant => acc.1 ++ [lastAssistant]
  | none => acc.1

/-- `buildMessages` from `chat-messages.ts`. -/
def buildMessages (systemPrompt : String) (history : List HistoryMessage)
    (userMessage : String) (maxHistoryMessages : Int) (summary : Option String) :
    List ChatMessage :=
  let firstMsg : Option HistoryMessage :=
    match history with
    | m :: _ => if m.role = Role.user then some m else none
    | [] => none
  let hasMiddle := 1 + maxHistoryMessages < (history.length : Int)
  let rawTail :=
    if hasMiddle then jsSlice history (-maxHistoryMessages) (history.length : Int)
    else
      match firstMsg with
      | some _ => jsSlice history 1 (history.length : Int)
      | none => history
  let tail := if hasMiddle then prioritizeUserRequests rawTail else rawTail
  let systemContent := systemContentOf systemPrompt summary
  let conversation :=
    (match firstMsg with
     | some m => [toChatMessage m]
     | none => []) ++
      tail.map toChatMessage ++
      [{ role := ChatRole.user, content := userMessage }]
  { role := ChatRole.system, content := systemContent } :: conversation

/-- The anchor part of the assembled conversation: history's first entry,
forwarded verbatim when it is a user turn. -/
def anchorMessages (history : List HistoryMessage) : List ChatMessage :=
  match history with
  | m :: _ => if m.role = Role.user then [toChatMessage m] else []
  | [] => []

/-- The non-anchor part of the history (everything except a leading user turn). -/
def nonAnchorHistory (history : List HistoryMessage) : List HistoryMessage :=
  match history with
  | m :: _ => if m.role = Role.user then history.drop 1 else history
  | [] => []

/-- The last `N` messages of the history (the recency window). -/
def lastWindow (history : List HistoryMessage) (N : Int) : List HistoryMessage :=
  history.drop (history.length - N.toNat)

/-- The most recent assistant-authored message of a window. -/
def lastAssistantOf (messages : List HistoryMessage) : Option HistoryMessage :=
  (messages.filter fun m => m.role = Role.assistant).getLast?

theorem option_some_or {α : Type} (a : α) (o : Option α) : (some a).or o = some a := rfl

theorem option_or_assoc {α : Type} (a b c : Option α) :
    (a.or b).or c = a.or (b.or c) := by cases a <;> rfl

theorem jsSlice_from_one {α : Type} (l : List α) :
    jsSlice l 1 (l.length : Int) = l.drop 1 := by
  cases l with
  | nil => simp [jsSlice]
  | cons a t =>
      simp only [jsSlice]
      rw [if_neg (by omega), if_neg (by omega)]
      have hlen : (a :: t).length = t.length + 1 := rfl
      have h1 : (min (1 : Int) ((a :: t).length : Int)).toNat = 1 := by omega
      have h2 : (min ((a :: t).length : Int) ((a :: t).length : Int)).toNat =
          (a :: t).length := by omega
      rw [h1, h2, List.take_length]

theorem jsSlice_last_window {α : Type} (l : List α) (N : Int)
    (h1 : 1 ≤ N) (h2 : N ≤ (l.length : Int)) :
    jsSlice l (-N) (l.length : Int) = l.drop (l.length - N.toNat) := by
  simp only [jsSlice]
  rw [if_pos (by omega), if_neg (by omega)]
  have he : (min (l.length : Int) (l.length : Int)).toNat = l.length := by omega
  have hs : (max ((l.length : Int) + -N) 0).toNat = l.length - N.toNat := by omega
  rw [he, hs, List.take_length]

theorem getLast?_cons_or {α : Type} (a : α) (l : List α) :
    (a :: l).getLast? = l.getLast?.or (some a) := by
  cases l with
  | nil => simp [Option.or]
  | cons b u =>
      have hs : ((b :: u).getLast?).isSome := List.getLast?_isSome.mpr (by simp)
      obtain ⟨x, hx⟩ := Option.isSome_iff_exists.mp hs
      rw [List.getLast?_cons_cons, hx, option_some_or]

theorem jsSlice_one_cons {α : Type} (a : α) (t : List α) :
    jsSlice (a :: t) 1 ((t.length : Int) + 1) = t := by
  simpa using jsSlice_from_one (a :: t)

theorem jsSlice_window_cons {α : Type} (a : α) (t : List α) (N : Int)
    (h1 : 1 ≤ N) (h2 : N ≤ (t.length : Int) + 1) :
    jsSlice (a :: t) (-N) ((t.length : Int) + 1) =
      (a :: t).drop ((a :: t).length - N.toNat) := by
  have hlen : (a :: t).length = t.length + 1 := rfl
  have h := jsSlice_last_window (a :: t) N h1 (by omega)
  simpa using h

theorem prioritize_foldl (msgs : List HistoryMessage)
    (users : List HistoryMessage) (la : Option HistoryMessage) :
    msgs.foldl
      (fun (acc : List HistoryMessage × Option HistoryMessage) m =>
        if m.role = Role.user then (acc.1 ++ [m], acc.2) else (acc.1, some m))
      (users, la) =
    (users ++ msgs.filter (fun m => m.role = Role.user),
      ((msgs.filter fun m => m.role = Role.assistant).getLast?).or la) := by
  induction msgs generalizing users la with
  | nil => simp
  | cons m t ih =>
      cases hr : m.role with
      | user =>
          simp only [List.foldl_cons, hr, if_pos rfl]
          rw [ih]
          simp [List.filter_cons, hr]
      | assistant =>
          simp only [List.foldl_cons, hr]
          rw [if_neg (by simp [hr]), ih]
          have hfa : ((m :: t).filter fun x => x.role = Role.assistant) =
              m :: (t.filter fun x => x.role = Role.assistant) := by
            simp [List.filter_cons, hr]
          have hfu : ((m :: t).filter fun x => x.role = Role.user) =
              t.filter fun x => x.role = Role.user := by
            simp [List.filter_cons, hr]
          rw [hfa, hfu, getLast?_cons_or, option_or_assoc, option_some_or]

theorem prioritizeUserRequests_eq (messages : List HistoryMessage) :
    prioritizeUserRequests messages =
      messages.filter (fun m => m.role = Role.user) ++
        (match lastAssistantOf messages with
         | some a => [a]
         | none => []) := by
  unfold prioritizeUserRequests lastAssistantOf
  rw [prioritize_foldl]
  cases hl : (messages.filter fun m => m.role = Role.assistant).getLast? <;>
    simp [hl, Option.or]

/-- C5: for any history fitting within anchor + recency window
(`history.length ≤ 1 + N`), the planner emits a no-work plan and the
assembler forwards the entire non-anchor history as the tail, unchanged and
in original order. -/
theorem short_history_no_work_and_full_tail
    (systemPrompt : String) (history : List HistoryMessage) (userMessage : String)
    (N : Int) (cached : Option SummaryState) (summary : Option String)
    (hshort : (history.length : Int) ≤ 1 + N) :
    (planSummaryUpdate history N cached).reuseCachedSummary = none ∧
    (planSummaryUpdate history N cached).summarizeFrom =
      (planSummaryUpdate history N cached).middleEnd ∧
    (planSummaryUpdate history N cached).seedSummary = none ∧
    (planSummaryUpdate history N cached).nextIncrementalUpdates = 0 ∧
    buildMessages systemPrompt history userMessage N summary =
      { role := ChatRole.system, content := systemContentOf systemPrompt summary } ::
        (anchorMessages history ++
          (nonAnchorHistory history).map toChatMessage ++
          [{ role := ChatRole.user, content := userMessage }]) := by
  have hm : (history.length : Int) - N ≤ 1 := by omega
  refine ⟨?_, ?_, ?_, ?_, ?_⟩
  · simp [planSummaryUpdate, MIDDLE_START_INDEX, hm]
  · simp [planSummaryUpdate, MIDDLE_START_INDEX, hm]
  · simp [planSummaryUpdate, MIDDLE_START_INDEX, hm]
  · simp [planSummaryUpdate, MIDDLE_START_INDEX, hm]
  · cases history with
    | nil =>
        have hx : ¬ (1 + N < (0 : Int)) := by omega
        simp [buildMessages, hx, anchorMessages, nonAnchorHistory]
    | cons m t =>
        have hlen : (m :: t).length = t.length + 1 := rfl
        have hx : ¬ (1 + N < (t.length : Int) + 1) := by omega
        cases hr : m.role <;>
          simp [buildMessages, hx, anchorMessages, nonAnchorHistory, hr,
            jsSlice_one_cons]

/-- C5 witness. -/
theorem short_history_no_work_and_full_tail_witness :
    (planSummaryUpdate (mkHistory 3) 10 none).reuseCachedSummary = none ∧
    (planSummaryUpdate (mkHistory 3) 10 none).summarizeFrom =
      (planSummaryUpdate (mkHistory 3) 10 none).middleEnd ∧
    (planSummaryUpdate (mkHistory 3) 10 none).seedSummary = none ∧
    (planSummaryUpdate (mkHistory 3) 10 none).nextIncrementalUpdates = 0 ∧
    buildMessages "System prompt" (mkHistory 3) "Now" 10 none =
      { role := ChatRole.system, content := systemContentOf "System prompt" none } ::
        (anchorMessages (mkHistory 3) ++
          (nonAnchorHistory (mkHistory 3)).map toChatMessage ++
          [{ role := ChatRole.user, content := "Now" }]) :=
  short_history_no_work_and_full_tail "System prompt" (mkHistory 3) "Now" 10 none none
    (by decide)

/-- C6: for any history longer than `1 + N`, the tail the assembler forwards
is the last `N` messages reduced by the recency-prioritization rule: every
user-authored message of that window is kept (in order) and the
assistant-authored messages collapse to only the single most recent one. -/
theorem buildMessages_recency_prioritization
    (systemPrompt : String) (history : List HistoryMessage) (userMessage : String)
    (N : Int) (summary : Option String)
    (hN : 1 ≤ N) (hlong : 1 + N < (history.length : Int)) :
    buildMessages systemPrompt history userMessage N summary =
      { role := ChatRole.system, content := systemContentOf systemPrompt summary } ::
        (anchorMessages history ++
          ((lastWindow history N).filter fun m => m.role = Role.user).map
            toChatMessage ++
          (match lastAssistantOf (lastWindow history N) with
           | some a => [toChatMessage a]
           | none => []) ++
          [{ role := ChatRole.user, content := userMessage }]) := by
  cases history with
  | nil => simp at hlong; omega
  | cons m t =>
      have hlen : (m :: t).length = t.length + 1 := rfl
      have hx : 1 + N < (t.length : Int) + 1 := by omega
      have hwin : jsSlice (m :: t) (-N) ((t.length : Int) + 1) =
          (m :: t).drop ((m :: t).length - N.toNat) :=
        jsSlice_window_cons m t N hN (by omega)
      cases hl : lastAssistantOf ((m :: t).drop (t.length + 1 - N.toNat)) <;>
        cases hr : m.role <;>
          simp [buildMessages, hx, anchorMessages, hr, hwin,
            prioritizeUserRequests_eq, lastWindow, hl]

/-- C6 witness. -/
theorem buildMessages_recency_prioritization_witness :
    buildMessages "System prompt" (mkHistory 16) "Current" 10 (some "Summary.") =
      { role := ChatRole.system,
        content := systemContentOf "System prompt" (some "Summary.") } ::
        (anchorMessages (mkHistory 16) ++
          ((lastWindow (mkHistory 16) 10).filter fun m => m.role = Role.user).map
            toChatMessage ++
          (match lastAssistantOf (lastWindow (mkHistory 16) 10) with
           | some a => [toChatMessage a]
           | none => []) ++
          [{ role := ChatRole.user, content := "Current" }]) :=
  buildMessages_recency_prioritization "System prompt" (mkHistory 16) "Current" 10
    (some "Summary.") (by decide) (by decide)

/-! ## Chunk splitter (`summary-cache.ts`) -/

/-- `estimateMessageChars`: content length plus a fixed 16-character
per-message overhead for role labels and separators. -/
def estimateMessageChars (m : HistoryMessage) : Int := (m.content.length : Int) + 16

/-- The greedy accumulation loop of `splitSummaryChunks`. -/
def splitGo (messageLimit charLimit : Int) :
    List HistoryMessage → List (List HistoryMessage) → List HistoryMessage → Int →
      List (List HistoryMessage)
  | [], chunks, current, _ =>
      if 0 < current.length then chunks ++ [current] else chunks
  | m :: rest, chunks, current, currentChars =>
      let messageChars := estimateMessageChars m
      let hitMessageLimit := messageLimit ≤ (current.length : Int)
      let hitCharLimit := 0 < current.length ∧ charLimit < currentChars + messageChars
      if hitMessageLimit ∨ hitCharLimit then
        splitGo messageLimit charLimit rest (chunks ++ [current]) [m] messageChars
      else
        splitGo messageLimit charLimit rest chunks (current ++ [m])
          (currentChars + messageChars)

/-- `splitSummaryChunks` from `summary-cache.ts`; non-positive limits clamp to 1. -/
def splitSummaryChunks (messages : List HistoryMessage)
    (maxMessages maxChars : Int) : List (List HistoryMessage) :=
  let messageLimit := if 0 < maxMessages then maxMessages else 1
  let charLimit := if 0 < maxChars then maxChars else 1
  splitGo messageLimit charLimit messages [] [] 0

theorem splitGo_flatten (L C : Int) (rest : List HistoryMessage)
    (chunks : List (List HistoryMessage)) (current : List HistoryMessage)
    (chars : Int) :
    (splitGo L C rest chunks current chars).flatten =
      chunks.flatten ++ current ++ rest := by
  induction rest generalizing chunks current chars with
  | nil =>
      by_cases h : 0 < current.length
      · simp [splitGo, h]
      · have hc : current = [] := by
          cases current with
          | nil => rfl
          | cons a u => simp at h
        simp [splitGo, h, hc]
  | cons m rest ih =>
      by_cases h : L ≤ (current.length : Int) ∨
          (0 < current.length ∧ C < chars + estimateMessageChars m)
      · simp only [splitGo, if_pos h]
        rw [ih]
        simp
      · simp only [splitGo, if_neg h]
        rw [ih]
        simp

/-- C8: `splitSummaryChunks` is lossless and order-preserving — for any
input and positive limits, concatenating the chunks in order reproduces the
input exactly. -/
theorem splitSummaryChunks_lossless (messages : List HistoryMessage)
    (maxMessages maxChars : Int) (h1 : 0 < maxMessages) (h2 : 0 < maxChars) :
    (splitSummaryChunks messages maxMessages maxChars).flatten = messages := by
  simp [splitSummaryChunks, h1, h2, splitGo_flatten]

/-- C8 witness. -/
theorem splitSummaryChunks_lossless_witness :
    (splitSummaryChunks (mkHistory 7) 3 10000).flatten = mkHistory 7 :=
  splitSummaryChunks_lossless (mkHistory 7) 3 10000 (by decide) (by decide)

example :
    (splitSummaryChunks (mkHistory 7) 3 10000).map List.length = [3, 3, 1] := by
  decide

example :
    splitSummaryChunks
        [{ role := Role.user, content := String.mk (List.replicate 200 'x') },
         { role := Role.assistant, content := "ok" }] 10 50 =
      [[{ role := Role.user, content := String.mk (List.replicate 200 'x') }],
       [{ role := Role.assistant, content := "ok" }]] := by
  decide

/-! ## Reply guard (`reply-guard.ts`) -/

/-- The apostrophe character, used in the completion-claim patterns. -/
def apos : Char := Char.ofNat 39

/-- JavaScript whitespace (`\s`), restricted to the ASCII range used here. -/
def isJsSpace (c : Char) : Bool :=
  c = ' ' || c = '\t' || c = '\n' || c = '\r' || c = Char.ofNat 11 || c = Char.ofNat 12

/-- `String.prototype.trim`. -/
def jsTrimList (s : List Char) : List Char :=
  ((s.dropWhile isJsSpace).reverse.dropWhile isJsSpace).reverse

/-- `reply.trim()` as used by the guard. -/
def jsTrim (s : String) : String := String.mk (jsTrimList s.data)

/-- JavaScript `\w`: ASCII letters, digits, underscore. -/
def isWordChar (c : Char) : Bool := c.isAlphanum || c = '_'

/-- Case-insensitive literal match: drop `pat` (given lowercase) from the
front of `s`, if it matches. -/
def dropCi : List Char → List Char → Option (List Char)
  | [], s => some s
  | _ :: _, [] => none
  | p :: ps, c :: cs => if c.toLower = p then dropCi ps cs else none

/-- A word boundary (`\b`) holds after a matched word at this remainder. -/
def boundaryAfter : List Char → Bool
  | [] => true
  | c :: _ => !isWordChar c

/-- Try each alternative literal; succeed when one matches with a word
boundary after it. -/
def matchAnyWord (pats : List (List Char)) (s : List Char) : Bool :=
  pats.any fun p =>
    match dropCi p s with
    | some rest => boundaryAfter rest
    | none => false

/-- Verb alternatives of the `I've/I have …` arm of `COMPLETION_CLAIM_PATTERN`. -/
def completionVerbs : List (List Char) :=
  ["created", "written", "updated", "implemented", "fixed", "added", "built",
   "generated", "set up", "modified", "applied", "refactored", "deleted",
   "removed", "moved", "renamed"].map String.data

/-- Verb alternatives of the `Done!/Finished! …` arm (no `set up`, no `applied`). -/
def doneVerbs : List (List Char) :=
  ["updated", "created", "written", "fixed", "added", "built", "generated",
   "modified", "implemented", "refactored", "deleted", "removed", "moved",
   "renamed"].map String.data

/-- Complements of the `everything's/is …` arm. -/
def everythingNouns : List (List Char) :=
  ["ready", "in place", "done", "complete"].map String.data

/-- `\bI(?:'ve| have) (?:verbs)\b`, matched at the current position. -/
def matchesIClaim (s : List Char) : Bool :=
  (match dropCi ('i' :: apos :: "ve ".data) s with
   | some rest => matchAnyWord completionVerbs rest
   | none => false) ||
  (match dropCi "i have ".data s with
   | some rest => matchAnyWord completionVerbs rest
   | none => false)

/-- `\beverything(?:'s| is) (?:ready|in place|done|complete)\b`. -/
def matchesEverything (s : List Char) : Bool :=
  (match dropCi ("everything".data ++ apos :: "s ".data) s with
   | some rest => matchAnyWord everythingNouns rest
   | none => false) ||
  (match dropCi "everything is ".data s with
   | some rest => matchAnyWord everythingNouns rest
   | none => false)

/-- `^(?:Done|Finished)!?\s+(?:verbs)\b`, anchored at the string start. -/
def matchesDoneStart (s : List Char) : Bool :=
  let after : List Char → Bool := fun rest =>
    let rest2 := match rest with
      | c :: cs => if c = '!' then cs else rest
      | [] => rest
    match rest2 with
    | c :: cs => isJsSpace c && matchAnyWord doneVerbs (cs.dropWhile isJsSpace)
    | [] => false
  (match dropCi "done".data s with
   | some rest => after rest
   | none => false) ||
  (match dropCi "finished".data s with
   | some rest => after rest
   | none => false)

/-- Scan every position preceded by a word boundary for the unanchored arms
of `COMPLETION_CLAIM_PATTERN`. -/
def scanClaim : Bool → List Char → Bool
  | _, [] => false
  | prevWord, c :: rest =>
      (!prevWord &&
        (matchesIClaim (c :: rest) || matchAnyWord ["all done".data] (c :: rest) ||
          matchesEverything (c :: rest))) ||
      scanClaim (isWordChar c) rest

/-- `COMPLETION_CLAIM_PATTERN.test`, over the characters of the trimmed reply. -/
def testCompletionClaim (s : List Char) : Bool :=
  matchesDoneStart s || scanClaim false s

/-- A tool event of a `ChatTurnTrace` (`{toolName, ok, path?, error?}`). -/
structure ToolEvent where
  toolName : String
  ok : Bool
  path : Option String
  error : Option String
  deriving DecidableEq, Repr

/-- `ChatTurnTrace` from `client.ts`. -/
structure ChatTurnTrace where
  toolEvents : List ToolEvent
  stepsUsed : Int
  finishReason : String
  deriving DecidableEq, Repr

/-- `GuardedReply` from `reply-guard.ts`. -/
structure GuardedReply where
  replyToSave : String
  guarded : Bool
  hasVerifiedWrite : Bool
  deriving DecidableEq, Repr

/-- `guardAssistantReply` from `reply-guard.ts`. -/
def guardAssistantReply (reply : String) (trace : Option ChatTurnTrace) :
    GuardedReply :=
  let trimmed := jsTrim reply
  let hasVerifiedWrite :=
    match trace with
    | some t =>
        t.toolEvents.any fun e =>
          decide (e.toolName = "write_project_file") && e.ok
    | none => false
  let looksLikeCompletionClaim := testCompletionClaim trimmed.data
  let guarded := decide (trimmed ≠ "") && !hasVerifiedWrite && looksLikeCompletionClaim
  { replyToSave := trimmed, guarded := guarded, hasVerifiedWrite := hasVerifiedWrite }

/-- The spec's example reply `I've updated the styles.`. -/
def iveReply : String := String.mk ('I' :: apos :: "ve updated the styles.".data)

/-- A successful read event. -/
def readOkEvent : ToolEvent :=
  { toolName := "read_project_file", ok := true,
    path := some "src/pages/index.hbs", error := none }

/-- A failed write event. -/
def writeFailEvent : ToolEvent :=
  { toolName := "write_project_file", ok := false,
    path := some "src/pages/index.hbs", error := some "denied" }

/-- A successful write event. -/
def writeOkEvent : ToolEvent :=
  { toolName := "write_project_file", ok := true,
    path := some "src/pages/index.hbs", error := none }

/-- A trace whose only successful event is a read. -/
def readOkTrace : ChatTurnTrace :=
  { toolEvents := [readOkEvent], stepsUsed := 1, finishReason := "stop" }

/-- A trace whose only write event failed. -/
def writeFailTrace : ChatTurnTrace :=
  { toolEvents := [writeFailEvent], stepsUsed := 1, finishReason := "stop" }

/-- A trace with a successful write event. -/
def writeOkTrace : ChatTurnTrace :=
  { toolEvents := [writeOkEvent], stepsUsed := 2, finishReason := "stop" }

/-- C9: `guardAssistantReply` saves the trimmed reply unaltered; its
`hasVerifiedWrite` holds exactly when the trace has a successful
`write_project_file` event; `guarded` holds exactly when the trimmed reply
is non-empty, no verified write happened, and the reply matches the
completion-claim pattern.  In particular the reply `I've updated the
styles.` is guarded without a verified-write trace and not guarded with
one. -/
theorem guardAssistantReply_spec (reply : String) (trace : Option ChatTurnTrace) :
    (guardAssistantReply reply trace).replyToSave = jsTrim reply ∧
    ((guardAssistantReply reply trace).hasVerifiedWrite = true ↔
      ∃ t, trace = some t ∧ ∃ e ∈ t.toolEvents,
        e.toolName = "write_project_file" ∧ e.ok = true) ∧
    ((guardAssistantReply reply trace).guarded = true ↔
      jsTrim reply ≠ "" ∧
        (guardAssistantReply reply trace).hasVerifiedWrite = false ∧
        testCompletionClaim (jsTrim reply).data = true) ∧
    (∀ t : ChatTurnTrace,
      (∃ e ∈ t.toolEvents, e.toolName = "write_project_file" ∧ e.ok = true) →
        (guardAssistantReply iveReply (some t)).guarded = false) ∧
    (guardAssistantReply iveReply none).guarded = true ∧
    (guardAssistantReply iveReply none).replyToSave = iveReply := by
  refine ⟨rfl, ?_, ?_, ?_, by decide, by decide⟩
  · cases trace with
    | none => simp [guardAssistantReply]
    | some t => simp [guardAssistantReply, List.any_eq_true]
  · cases trace with
    | none => simp [guardAssistantReply]
    | some t =>
        simp only [guardAssistantReply, Bool.and_eq_true, decide_eq_true_eq,
          Bool.not_eq_true']
        tauto
  · intro t ⟨e, he, hn, hok⟩
    have hw : (t.toolEvents.any fun e =>
        decide (e.toolName = "write_project_file") && e.ok) = true := by
      rw [List.any_eq_true]
      exact ⟨e, he, by simp [hn, hok]⟩
    simp [guardAssistantReply, hw]

/-- C9 witness. -/
theorem guardAssistantReply_spec_witness :
    (guardAssistantReply iveReply none).guarded = true ∧
    (guardAssistantReply iveReply none).replyToSave = iveReply ∧
    (guardAssistantReply iveReply (some writeOkTrace)).guarded = false := by
  have h := guardAssistantReply_spec iveReply none
  exact ⟨h.2.2.2.2.1, h.2.2.2.2.2,
    h.2.2.2.1 writeOkTrace ⟨writeOkEvent, by simp [writeOkTrace], rfl, rfl⟩⟩

/-- C10: `hasVerifiedWrite` is true only for a trace containing a
`write_project_file` event with `ok = true`: an absent trace, a trace whose
successful events are all other tools (for example a successful
`read_project_file`), and a failed `write_project_file` event all leave it
false. -/
theorem guardAssistantReply_verified_write_only (reply : String)
    (t : ChatTurnTrace) :
    ((guardAssistantReply reply (some t)).hasVerifiedWrite = true ↔
      ∃ e ∈ t.toolEvents, e.toolName = "write_project_file" ∧ e.ok = true) ∧
    (guardAssistantReply reply none).hasVerifiedWrite = false ∧
    (guardAssistantReply reply (some readOkTrace)).hasVerifiedWrite = false ∧
    (guardAssistantReply reply (some writeFailTrace)).hasVerifiedWrite = false := by
  refine ⟨?_, ?_, ?_, ?_⟩
  · simp [guardAssistantReply, List.any_eq_true]
  · simp [guardAssistantReply]
  · simp [guardAssistantReply, readOkTrace, readOkEvent]
  · simp [guardAssistantReply, writeFailTrace, writeFailEvent]

/-- C10 witness. -/
theorem guardAssistantReply_verified_write_only_witness :
    ((guardAssistantReply "ok" (some writeOkTrace)).hasVerifiedWrite = true ↔
      ∃ e ∈ writeOkTrace.toolEvents,
        e.toolName = "write_project_file" ∧ e.ok = true) ∧
    (guardAssistantReply "ok" none).hasVerifiedWrite = false ∧
    (guardAssistantReply "ok" (some readOkTrace)).hasVerifiedWrite = false ∧
    (guardAssistantReply "ok" (some writeFailTrace)).hasVerifiedWrite = false :=
  guardAssistantReply_verified_write_only "ok" writeOkTrace

/-! ## Persisted records and the clear command
(`chat-history.ts`, `chat-events.ts`, `clear.ts`) -/

/-- `ChatTurnEvent` from `chat-events.ts`. -/
structure ChatTurnEvent where
  timestamp : String
  trace : ChatTurnTrace
  hasVerifiedWrite : Bool
  replyWasGuarded : Bool
  summarySource : Option String
  deriving DecidableEq, Repr

/-- The three persisted records of a project directory, observed at the
level of what the read functions decode: `none` models a missing or corrupt
file, whose read yields the empty form. -/
structure ProjectFiles where
  history : Option (List HistoryMessage)
  summaryState : Option SummaryState
  events : Option (List ChatTurnEvent)
  deriving DecidableEq, Repr

/-- `readHistory`: empty sequence on missing/corrupt storage. -/
def readHistory (fs : ProjectFiles) : List HistoryMessage := fs.history.getD []

/-- `readSummaryState`: `null` on missing, corrupt, or invalid data. -/
def readSummaryState (fs : ProjectFiles) : Option SummaryState := fs.summaryState

/-- `readChatEvents`: empty ledger on missing/corrupt storage. -/
def readChatEvents (fs : ProjectFiles) : List ChatTurnEvent := fs.events.getD []

/-- `clearSummaryState`: overwrites the summary file with `{}`, which every
subsequent read rejects, so the cache reads as absent. -/
def clearSummaryState (fs : ProjectFiles) : ProjectFiles :=
  { fs with summaryState := none }

/-- `clearHistory` from `chat-history.ts`: resets the history file to `[]`
and clears the summary state.  It does not touch the chat-events file. -/
def clearHistory (fs : ProjectFiles) : ProjectFiles :=
  clearSummaryState { fs with history := some [] }

/-- `runClear` from `clear.ts`: calls only `clearHistory`. -/
def runClear (fs : ProjectFiles) : ProjectFiles := clearHistory fs

/-- The turn event recorded in the repository's `clear.test.ts`. -/
def clearTestEvent : ChatTurnEvent :=
  { timestamp := "2026-02-18T12:00:00.000Z", trace := writeOkTrace,
    hasVerifiedWrite := true, replyWasGuarded := false, summarySource := none }

/-- The history `clear.test.ts` prepares. -/
def clearTestHistory : List HistoryMessage :=
  [{ role := Role.user, content := "hello" }, { role := Role.assistant, content := "hi" }]

/-- The summary state `clear.test.ts` prepares. -/
def clearTestSummary : SummaryState :=
  { summary := "context", summarizedUntil := 2,
    firstUserMessage := "hello", incrementalUpdates := 4 }

/-- The project state `clear.test.ts` prepares before calling `runClear`. -/
def clearTestStore : ProjectFiles :=
  { history := some clearTestHistory,
    summaryState := some clearTestSummary,
    events := some [clearTestEvent] }

/-- C7 (code bug): after `runClear`, the history reads empty and the summary
cache reads absent, but the turn event ledger still holds its old entry —
`runClear` never calls `clearChatEvents`, although the repository's own
`clear.test.ts` asserts the events file is reset to `[]` and the spec says
a clear truncates the ledger. -/
theorem runClear_leaves_event_ledger :
    readHistory (runClear clearTestStore) = [] ∧
    readSummaryState (runClear clearTestStore) = none ∧
    readChatEvents (runClear clearTestStore) = [clearTestEvent] ∧
    readChatEvents (runClear clearTestStore) ≠ [] := by
  refine ⟨rfl, rfl, rfl, ?_⟩
  simp [readChatEvents, runClear, clearHistory, clearSummaryState, clearTestStore]

/-! ## Rolling summarizer (`chat.ts`, helpers from `summarize.ts`) -/

/-- The lowercase form of the `Previous condensed summary:` label. -/
def previousSummaryLabel : List Char := "previous condensed summary:".data

/-- Greedily consume further `(?:label\s*)+` repetitions; the fuel (always
called with the input length, which bounds the repetition count) keeps the
recursion structural. -/
def moreRepsFuel : Nat → List Char → List Char
  | 0, s => s
  | fuel + 1, s =>
      match dropCi previousSummaryLabel s with
      | none => s
      | some rest => moreRepsFuel fuel (rest.dropWhile isJsSpace)

/-- Match `(?:Previous condensed summary:\s*)+` (case-insensitive) at the
current position, returning the remainder after the greedy match. -/
def matchLabelReps (s : List Char) : Option (List Char) :=
  match dropCi previousSummaryLabel s with
  | none => none
  | some rest => some (moreRepsFuel s.length (rest.dropWhile isJsSpace))

/-- Walk the string, trying the label run at each line start (`^` with the
`m` flag) and removing the first match. -/
def stripWalk : Bool → List Char → List Char
  | _, [] => []
  | atLineStart, c :: cs =>
      if atLineStart then
        match matchLabelReps (c :: cs) with
        | some rest => rest
        | none => c :: stripWalk (c = '\n' || c = '\r') cs
      else c :: stripWalk (c = '\n' || c = '\r') cs

/-- `stripPreviousSummaryPrefix` from `summarize.ts`:
`text.replace(/^(?:Previous condensed summary:\s*)+/im, "").trim()`. -/
def stripPreviousSummaryLabel (text : String) : String :=
  String.mk (jsTrimList (stripWalk true text.data))

/-- The external condensation collaborator and the local fallback condenser,
abstracted as the environment of one summarizer run: `model input` is the
summary text produced by `summarizeConversationWithRetry` for that request
(the empty string when the request failed or both attempts were
inadequate), and `fallback` is `buildFallbackSummary`. -/
structure SummaryEnv where
  model : List HistoryMessage → String
  fallback : List HistoryMessage → String

/-- The framing message that carries the rolling summary into the next
condensation request. -/
def previousSummaryMessage (rolling : String) : HistoryMessage :=
  { role := Role.assistant,
    content := "Previous condensed summary:\n" ++ rolling }

/-- The input of one condensation request: the rolling summary so far (when
non-empty) followed by the chunk's raw turns. -/
def chunkInput (rolling : String) (chunk : List HistoryMessage) :
    List HistoryMessage :=
  if rolling ≠ "" then previousSummaryMessage rolling :: chunk else chunk

/-- `summarized || buildFallbackSummary(summaryInput)` for one chunk: the
trimmed model result, or the local fallback when the model result is
empty. -/
def chunkFinalSummary (env : SummaryEnv) (rolling : String)
    (chunk : List HistoryMessage) : String :=
  let summarized := jsTrim (env.model (chunkInput rolling chunk))
  if summarized = "" then env.fallback (chunkInput rolling chunk) else summarized

/-- The chunk loop of `getCachedOrFreshSummary`: processes chunks in order,
threading the rolling summary; stops at the first chunk with no usable
summary.  Returns the final rolling summary and the number of chunks
processed. -/
def rollChunks (env : SummaryEnv) (rolling : String) :
    List (List HistoryMessage) → String × Nat
  | [] => (rolling, 0)
  | chunk :: rest =>
      if chunkFinalSummary env rolling chunk = "" then (rolling, 0)
      else
        ((rollChunks env
            (stripPreviousSummaryLabel (chunkFinalSummary env rolling chunk)) rest).1,
         (rollChunks env
            (stripPreviousSummaryLabel (chunkFinalSummary env rolling chunk)) rest).2 + 1)

/-- `plan.seedSummary ? stripPreviousSummaryPrefix(plan.seedSummary) : ""`. -/
def jsSeed : Option String → String
  | some s => if s ≠ "" then stripPreviousSummaryLabel s else ""
  | none => ""

/-- `getCachedOrFreshSummary` from `chat.ts`, as a function from the cached
state and history to the summary returned for the turn and the new
`SummaryState` written to the store (`none`: the persisted cache is left
exactly as it was). -/
def getCachedOrFreshSummary (env : SummaryEnv) (cached : Option SummaryState)
    (history : List HistoryMessage) (maxHistory : Int) :
    Option String × Option SummaryState :=
  let plan := planSummaryUpdate history maxHistory cached
  if optTruthy plan.reuseCachedSummary then (plan.reuseCachedSummary, none)
  else if plan.middleEnd ≤ plan.summarizeFrom then (none, none)
  else
    let unsummarizedMiddle := jsSlice history plan.summarizeFrom plan.middleEnd
    let chunks := splitSummaryChunks unsummarizedMiddle
      SUMMARY_CHUNK_MAX_MESSAGES SUMMARY_CHUNK_MAX_CHARS
    if chunks.length = 0 then (none, none)
    else
      let rolled := rollChunks env (jsSeed plan.seedSummary) chunks
      if rolled.1 = "" then (none, none)
      else if rolled.2 ≠ chunks.length then (some rolled.1, none)
      else
        (some rolled.1,
          some { summary := rolled.1, summarizedUntil := plan.middleEnd,
                 firstUserMessage := plan.firstUserMessage,
                 incrementalUpdates := plan.nextIncrementalUpdates })

theorem rollChunks_processed_le (env : SummaryEnv) (rolling : String)
    (chunks : List (List HistoryMessage)) :
    (rollChunks env rolling chunks).2 ≤ chunks.length := by
  induction chunks generalizing rolling with
  | nil => simp [rollChunks]
  | cons chunk rest ih =>
      by_cases h : chunkFinalSummary env rolling chunk = ""
      · simp [rollChunks, h]
      · simp only [rollChunks, if_neg h, List.length_cons]
        exact Nat.add_le_add_right (ih _) 1

theorem chunkFinal_strip_ne (env : SummaryEnv)
    (hm : ∀ x, jsTrim (env.model x) ≠ "" →
      stripPreviousSummaryLabel (jsTrim (env.model x)) ≠ "")
    (hf : ∀ x, env.fallback x ≠ "" →
      stripPreviousSummaryLabel (env.fallback x) ≠ "")
    (rolling : String) (chunk : List HistoryMessage)
    (h : chunkFinalSummary env rolling chunk ≠ "") :
    stripPreviousSummaryLabel (chunkFinalSummary env rolling chunk) ≠ "" := by
  unfold chunkFinalSummary at h ⊢
  by_cases hs : jsTrim (env.model (chunkInput rolling chunk)) = ""
  · rw [if_pos hs] at h ⊢
    exact hf _ h
  · rw [if_neg hs]
    exact hm _ hs

theorem rollChunks_complete_nonempty (env : SummaryEnv)
    (hm : ∀ x, jsTrim (env.model x) ≠ "" →
      stripPreviousSummaryLabel (jsTrim (env.model x)) ≠ "")
    (hf : ∀ x, env.fallback x ≠ "" →
      stripPreviousSummaryLabel (env.fallback x) ≠ "")
    (chunks : List (List HistoryMessage)) (rolling : String)
    (hne : chunks ≠ [])
    (hall : (rollChunks env rolling chunks).2 = chunks.length) :
    (rollChunks env rolling chunks).1 ≠ "" := by
  induction chunks generalizing rolling with
  | nil => exact absurd rfl hne
  | cons chunk rest ih =>
      by_cases h : chunkFinalSummary env rolling chunk = ""
      · rw [rollChunks, if_pos h] at hall
        simp at hall
      · rw [rollChunks, if_neg h] at hall ⊢
        simp only [List.length_cons, Nat.add_right_cancel_iff] at hall
        cases rest with
        | nil =>
            simp only [rollChunks]
            exact chunkFinal_strip_ne env hm hf rolling chunk h
        | cons c2 r2 =>
            exact ih _ (by simp) hall

/-- C1: over a plan that reaches the chunk loop with a non-empty chunk
range, a new `SummaryState` — covering up to the plan's `middleEnd` with
the plan's `nextIncrementalUpdates` — is persisted if and only if every
planned chunk was successfully processed; on a partial run the partial
rolling summary (when non-empty) is still returned for the current turn
while the persisted cache is left exactly as it was.  The two environment
hypotheses state that stripping the summary label never erases a usable
chunk result, which holds of the real collaborators since their outputs are
already label-stripped. -/
theorem getCachedOrFreshSummary_commit_rule (env : SummaryEnv)
    (cached : Option SummaryState) (history : List HistoryMessage)
    (maxHistory : Int) (plan : SummaryPlan)
    (chunks : List (List HistoryMessage)) (rolled : String × Nat)
    (hplan : plan = planSummaryUpdate history maxHistory cached)
    (hchunks : chunks =
      splitSummaryChunks (jsSlice history plan.summarizeFrom plan.middleEnd)
        SUMMARY_CHUNK_MAX_MESSAGES SUMMARY_CHUNK_MAX_CHARS)
    (hrolled : rolled = rollChunks env (jsSeed plan.seedSummary) chunks)
    (hnoreuse : optTruthy plan.reuseCachedSummary = false)
    (hrange : plan.summarizeFrom < plan.middleEnd)
    (hne : chunks ≠ [])
    (hm : ∀ x, jsTrim (env.model x) ≠ "" →
      stripPreviousSummaryLabel (jsTrim (env.model x)) ≠ "")
    (hf : ∀ x, env.fallback x ≠ "" →
      stripPreviousSummaryLabel (env.fallback x) ≠ "") :
    ((getCachedOrFreshSummary env cached history maxHistory).2 ≠ none ↔
      rolled.2 = chunks.length) ∧
    (getCachedOrFreshSummary env cached history maxHistory).2 =
      (if rolled.2 = chunks.length then
        some { summary := rolled.1, summarizedUntil := plan.middleEnd,
               firstUserMessage := plan.firstUserMessage,
               incrementalUpdates := plan.nextIncrementalUpdates }
       else none) ∧
    (getCachedOrFreshSummary env cached history maxHistory).1 =
      (if rolled.1 = "" then none else some rolled.1) := by
  have hlen : ¬ (chunks.length = 0) := by
    intro h
    exact hne (List.length_eq_zero.mp h)
  have hnr : ¬ (plan.middleEnd ≤ plan.summarizeFrom) := not_le.mpr hrange
  have key : getCachedOrFreshSummary env cached history maxHistory =
      (if rolled.1 = "" then (none, none)
       else if rolled.2 ≠ chunks.length then (some rolled.1, none)
       else (some rolled.1,
         some { summary := rolled.1, summarizedUntil := plan.middleEnd,
                firstUserMessage := plan.firstUserMessage,
                incrementalUpdates := plan.nextIncrementalUpdates })) := by
    simp only [getCachedOrFreshSummary, ← hplan, ← hchunks, ← hrolled]
    rw [if_neg (show ¬ (optTruthy plan.reuseCachedSummary = true) by
      simp [hnoreuse]), if_neg hnr, if_neg hlen]
  rw [key]
  by_cases hall : rolled.2 = chunks.length
  · have hnz : rolled.1 ≠ "" := by
      rw [hrolled]
      exact rollChunks_complete_nonempty env hm hf chunks _ hne (hrolled ▸ hall)
    rw [if_neg hnz, if_neg (show ¬ (rolled.2 ≠ chunks.length) from fun h => h hall),
      if_pos hall]
    exact ⟨by simp [hall], rfl, by rw [if_neg hnz]⟩
  · by_cases hz : rolled.1 = ""
    · rw [if_pos hz, if_neg hall]
      exact ⟨by simp [hall], rfl, by rw [if_pos hz]⟩
    · rw [if_neg hz, if_pos (show rolled.2 ≠ chunks.length from hall), if_neg hall]
      exact ⟨by simp [hall], rfl, by rw [if_neg hz]⟩

/-- The environment used by the C1 witness: a model that always produces a
fixed adequate summary, with the fallback never consulted. -/
def demoEnv : SummaryEnv :=
  { model := fun _ =>
      "User asked for a landing page; assistant created src/pages/index.hbs.",
    fallback := fun _ => "" }

/-- The planner output for the C1 witness run. -/
def demoPlan : SummaryPlan := planSummaryUpdate (mkHistory 13) 10 none

/-- The chunks of the C1 witness run. -/
def demoChunks : List (List HistoryMessage) :=
  splitSummaryChunks (jsSlice (mkHistory 13) demoPlan.summarizeFrom demoPlan.middleEnd)
    SUMMARY_CHUNK_MAX_MESSAGES SUMMARY_CHUNK_MAX_CHARS

/-- The chunk-loop result of the C1 witness run. -/
def demoRolled : String × Nat := rollChunks demoEnv (jsSeed demoPlan.seedSummary) demoChunks

/-- C1 witness. -/
theorem getCachedOrFreshSummary_commit_rule_witness :
    ((getCachedOrFreshSummary demoEnv none (mkHistory 13) 10).2 ≠ none ↔
      demoRolled.2 = demoChunks.length) ∧
    (getCachedOrFreshSummary demoEnv none (mkHistory 13) 10).2 =
      (if demoRolled.2 = demoChunks.length then
        some { summary := demoRolled.1, summarizedUntil := demoPlan.middleEnd,
               firstUserMessage := demoPlan.firstUserMessage,
               incrementalUpdates := demoPlan.nextIncrementalUpdates }
       else none) ∧
    (getCachedOrFreshSummary demoEnv none (mkHistory 13) 10).1 =
      (if demoRolled.1 = "" then none else some demoRolled.1) :=
  getCachedOrFreshSummary_commit_rule demoEnv none (mkHistory 13) 10
    demoPlan demoChunks demoRolled rfl rfl rfl (by decide) (by decide)
    (by decide)
    (by
      intro x hx
      have h : stripPreviousSummaryLabel (jsTrim
          "User asked for a landing page; assistant created src/pages/index.hbs.") ≠
            "" := by decide
      exact h)
    (by intro x hx; exact absurd rfl hx)

end PotionKit
